import Mathlib

/-!
Shallow embedding of the nutrition-tracker service in `app.py`.

Conventions of the embedding:
* Python strings that flow through the webhook text pipeline are modelled as
  lists of Unicode code points (`List ℕ`); `strN` converts a Lean string
  literal to that representation.  Python's `str.lower` is modelled by
  `lowerCp` (ASCII case mapping, which is all the fixed catalog and the
  grammar keywords use), `str.strip` by `pyStrip`, `str.split(',')` by
  `splitComma`.
* Python numbers inside the registration path are modelled as exact
  rationals (`ℚ`).  `float(...)` applied to a string is modelled by
  `pyFloat`, covering sign, integer/fraction digits and exponent (the
  `inf`/`nan`/underscore forms of CPython are outside the modelled
  fragment; no claim exercises them).
* The mutable globals `users_db` / `meals_db` are modelled as an explicit
  `AppState` threaded through `register`.
-/

/-- One entry of `food_db` / one nutrition accumulator (`app.py` lines 12-21
and 92): calories, protein, carbs, fiber, all Python ints. -/
@[ext]
structure Nutrition where
  calories : Int
  protein : Int
  carbs : Int
  fiber : Int
deriving DecidableEq

deriving instance DecidableEq for Except

/-- The all-zero totals `{"calories": 0, "protein": 0, "carbs": 0, "fiber": 0}`. -/
def nzero : Nutrition := ⟨0, 0, 0, 0⟩

/-- Code points of a string literal: the embedding of a Python `str`. -/
def strN (s : String) : List ℕ := s.data.map Char.toNat

/-- The fixed catalog `food_db` of `app.py` lines 12-21, keyed by the exact
(case-sensitive) food name. -/
def food_db : List (List ℕ × Nutrition) :=
  [ (strN "Jeera Rice", ⟨250, 5, 45, 2⟩),
    (strN "Dal", ⟨180, 12, 20, 5⟩),
    (strN "Cucumber", ⟨16, 1, 4, 1⟩),
    (strN "Roti", ⟨120, 3, 25, 3⟩),
    (strN "Chicken Curry", ⟨300, 25, 8, 1⟩),
    (strN "Paneer", ⟨265, 18, 6, 0⟩),
    (strN "Salad", ⟨25, 2, 5, 3⟩),
    (strN "Rice", ⟨205, 4, 45, 1⟩) ]

/-- Dict lookup `food_db[item]` guarded by `item in food_db`
(`app.py` lines 95-96): exact string match, absence is silent. -/
def lookupFood (item : List ℕ) : Option Nutrition :=
  (food_db.find? (fun e => e.1 == item)).map (fun e => e.2)

/-- The body of the `calculate_nutrition` loop (`app.py` lines 94-98): if
the item is found in `food_db`, add its four fields into the accumulator,
otherwise leave the accumulator unchanged. -/
def calcStep (total : Nutrition) (item : List ℕ) : Nutrition :=
  match lookupFood item with
  | some n =>
      { calories := total.calories + n.calories,
        protein := total.protein + n.protein,
        carbs := total.carbs + n.carbs,
        fiber := total.fiber + n.fiber }
  | none => total

/-- `calculate_nutrition` (`app.py` lines 90-100): start from all-zero
totals and fold the loop body over the item list. -/
def calculate_nutrition (food_items : List (List ℕ)) : Nutrition :=
  food_items.foldl calcStep nzero

/-- The nutrition contributed by a single item: its catalog facts if
recognized, zero otherwise. -/
def foodContrib (item : List ℕ) : Nutrition := (lookupFood item).getD nzero

/-- Aggregation as the specification words it: the elementwise sum, over
the input list, of the catalog facts of the recognized items (unrecognized
items contributing zero).  Refinement target for `calculate_nutrition`. -/
def aggregateSpec (items : List (List ℕ)) : Nutrition :=
  { calories := (items.map (fun i => (foodContrib i).calories)).sum,
    protein := (items.map (fun i => (foodContrib i).protein)).sum,
    carbs := (items.map (fun i => (foodContrib i).carbs)).sum,
    fiber := (items.map (fun i => (foodContrib i).fiber)).sum }

/-- `str.lower()` on a Lean string: ASCII case mapping of every
character.  (Lean's own `String.toLower` is not used because its
position-based recursion does not reduce inside the kernel.) -/
def pyLowerS (s : String) : String := String.mk (s.data.map Char.toLower)

/-- `calculate_bmr` (`app.py` lines 43-50): Mifflin-St Jeor formulas keyed
on the lowercased gender, raising `ValueError` otherwise (embedded as
`Except.error` carrying the exact message string). -/
def calculate_bmr (gender : String) (weight height age : ℚ) : Except String ℚ :=
  if pyLowerS gender = "male" then
    .ok (88.362 + (13.397 * weight) + (4.799 * height) - (5.677 * age))
  else if pyLowerS gender = "female" then
    .ok (447.593 + (9.247 * weight) + (3.098 * height) - (4.33 * age))
  else
    .error "Gender must be 'male' or 'female'"

/-- Python whitespace (the characters `str.strip` removes and `\s` matches
for ASCII input). -/
def isSpaceChar (c : Char) : Bool :=
  c = ' ' || c = '\t' || c = '\n' || c = '\r' || c = '\x0b' || c = '\x0c'

/-- `str.strip()` on a character list. -/
def stripChars (l : List Char) : List Char :=
  ((l.dropWhile isSpaceChar).reverse.dropWhile isSpaceChar).reverse

/-- `str.strip()` on a Lean string (used for user names). -/
def pyStripS (s : String) : String := String.mk (stripChars s.data)

/-- Numeric value of a digit run. -/
def digitsToNat (l : List Char) : ℕ :=
  l.foldl (fun a c => a * 10 + (c.toNat - 48)) 0

/-- Digits of a float exponent: nonempty, all decimal digits. -/
def expDigits (d : List Char) : Option ℤ :=
  if d ≠ [] ∧ d.all Char.isDigit then some ((digitsToNat d : ℤ)) else none

/-- Optional exponent part of a Python float literal (`e`/`E`, optional
sign, digits); an empty remainder means exponent 0. -/
def parseExp (l : List Char) : Option ℤ :=
  match l with
  | [] => some 0
  | c :: r =>
    if c = 'e' ∨ c = 'E' then
      match r with
      | '+' :: d => expDigits d
      | '-' :: d => (expDigits d).map (fun n => -n)
      | d => expDigits d
    else none

/-- Mantissa of a Python float literal: integer digits, optional decimal
point with fraction digits; at least one digit overall.  Returns the value
and the unconsumed remainder. -/
def parseMantissa (l : List Char) : Option (ℚ × List Char) :=
  match l.dropWhile Char.isDigit with
  | '.' :: r2 =>
    if (l.takeWhile Char.isDigit).isEmpty ∧ (r2.takeWhile Char.isDigit).isEmpty then none
    else
      some (((digitsToNat (l.takeWhile Char.isDigit) : ℚ) +
             (digitsToNat (r2.takeWhile Char.isDigit) : ℚ) / (10 : ℚ) ^ (r2.takeWhile Char.isDigit).length),
            r2.dropWhile Char.isDigit)
  | r1 =>
    if (l.takeWhile Char.isDigit).isEmpty then none
    else some ((digitsToNat (l.takeWhile Char.isDigit) : ℚ), r1)

/-- Scale a mantissa by a signed power of ten. -/
def applyExp (x : ℚ) (e : ℤ) : ℚ :=
  if 0 ≤ e then x * (10 : ℚ) ^ e.toNat else x / (10 : ℚ) ^ (-e).toNat

/-- Unsigned part of `float(str)`. -/
def pyFloatCore (l : List Char) : Option ℚ :=
  match parseMantissa l with
  | some (m, rest) => (parseExp rest).map (fun e => applyExp m e)
  | none => none

/-- Signed part of `float(str)` after stripping. -/
def pyFloatAux : List Char → Option ℚ
  | '+' :: r => pyFloatCore r
  | '-' :: r => (pyFloatCore r).map Neg.neg
  | l => pyFloatCore l

/-- Python `float(s)` for a string argument: strip whitespace, optional
sign, digits with optional fraction and exponent; `None` models the
`ValueError` raised on anything else. -/
def pyFloat (s : String) : Option ℚ := pyFloatAux (stripChars s.data)

/-- Raw registration payload: each of the six fields either absent from the
JSON object or present as a string (the payload shape all claims use). -/
structure RegData where
  name : Option String
  age : Option String
  weight : Option String
  height : Option String
  gender : Option String
  goal : Option String
deriving DecidableEq

/-- `field not in data or not data[field]` (`app.py` lines 57-59): absent or
falsy (empty string) yields `"<field> is required"`. -/
def reqCheck (v : Option String) (fname : String) : List String :=
  match v with
  | none => [fname ++ " is required"]
  | some s => if s = "" then [fname ++ " is required"] else []

/-- One numeric block of `validate_user_data` (`app.py` lines 61-83): if
the field is present, try `float(...)`; on success check `x <= 0 or x > hi`
(range message), on failure emit the parse message. -/
def numCheck (v : Option String) (hi : ℚ) (rangeMsg parseMsg : String) : List String :=
  match v with
  | none => []
  | some s =>
    match pyFloat s with
    | some x => if x ≤ 0 ∨ x > hi then [rangeMsg] else []
    | none => [parseMsg]

/-- Gender block of `validate_user_data` (`app.py` lines 85-86). -/
def genderCheck (v : Option String) : List String :=
  match v with
  | none => []
  | some g =>
    if pyLowerS g = "male" ∨ pyLowerS g = "female" then []
    else ["Gender must be 'male' or 'female'"]

/-- The six required-presence errors, in declaration order
(`app.py` lines 54-59). -/
def requiredErrors (d : RegData) : List String :=
  reqCheck d.name "name" ++ reqCheck d.age "age" ++ reqCheck d.weight "weight" ++
    reqCheck d.height "height" ++ reqCheck d.gender "gender" ++ reqCheck d.goal "goal"

/-- Age block of `validate_user_data`. -/
def ageErrors (d : RegData) : List String :=
  numCheck d.age 150 "Age must be between 1 and 150" "Age must be a valid number"

/-- Weight block of `validate_user_data`. -/
def weightErrors (d : RegData) : List String :=
  numCheck d.weight 500 "Weight must be between 1 and 500 kg" "Weight must be a valid number"

/-- Height block of `validate_user_data`. -/
def heightErrors (d : RegData) : List String :=
  numCheck d.height 300 "Height must be between 1 and 300 cm" "Height must be a valid number"

/-- Gender block of `validate_user_data`. -/
def genderErrors (d : RegData) : List String := genderCheck d.gender

/-- `validate_user_data` (`app.py` lines 52-88): all blocks run
independently and their messages are appended in program order. -/
def validate_user_data (d : RegData) : List String :=
  requiredErrors d ++ ageErrors d ++ weightErrors d ++ heightErrors d ++ genderErrors d

/-- Python's banker's rounding to an integer (`round(x)`), on exact
rationals. -/
def roundHalfEven (q : ℚ) : ℤ :=
  if q - ⌊q⌋ < 1 / 2 then ⌊q⌋
  else if 1 / 2 < q - ⌊q⌋ then ⌊q⌋ + 1
  else if (⌊q⌋ : ℤ) % 2 = 0 then ⌊q⌋ else ⌊q⌋ + 1

/-- Python `round(x, 2)` on exact rationals. -/
def pyRound2 (q : ℚ) : ℚ := (roundHalfEven (q * 100) : ℚ) / 100

/-- A stored user record (`app.py` lines 143-152 and 335-344). -/
structure UserRecord where
  name : String
  age : ℚ
  weight : ℚ
  height : ℚ
  gender : String
  goal : String
  bmr : ℚ
  registered_at : String
deriving DecidableEq

/-- A stored meal entry (`app.py` lines 195-201 and 348-354). -/
structure MealEntry where
  userId : String
  mealType : String
  foodItems : List (List ℕ)
  nutrition : Nutrition
  loggedAt : String
deriving DecidableEq

/-- The two mutable stores `users_db` (name-keyed) and `meals_db`
(append-only log). -/
structure AppState where
  users : List (String × UserRecord)
  meals : List MealEntry
deriving DecidableEq

/-- Outcome of the `/register` endpoint body (`app.py` lines 119-163). -/
inductive RegResult where
  | validationFailed (details : List String)
  | conflict
  | ok (user : UserRecord)
  | exception (msg : String)
deriving DecidableEq

/-- The record built at `app.py` lines 143-152: trimmed name, re-parsed
numeric fields, lowercased gender, BMR rounded to 2 decimal places. -/
def mkRegRecord (d : RegData) (now : String) (b : ℚ) : UserRecord :=
  { name := pyStripS (d.name.getD ""),
    age := (pyFloat (d.age.getD "")).getD 0,
    weight := (pyFloat (d.weight.getD "")).getD 0,
    height := (pyFloat (d.height.getD "")).getD 0,
    gender := pyLowerS (d.gender.getD ""),
    goal := d.goal.getD "",
    bmr := pyRound2 b,
    registered_at := now }

/-- `register_user` (`app.py` lines 119-163): validate, trim the name,
reject an existing name with 409, compute the BMR and insert the new
record.  The `.getD` defaults are never consulted on the reachable paths:
validation guarantees presence and parseability first, exactly as the
Python code relies on. -/
def register (st : AppState) (d : RegData) (now : String) : RegResult × AppState :=
  if validate_user_data d = [] then
    if (st.users.lookup (pyStripS (d.name.getD ""))).isSome then (.conflict, st)
    else
      match calculate_bmr (d.gender.getD "") ((pyFloat (d.weight.getD "")).getD 0)
          ((pyFloat (d.height.getD "")).getD 0) ((pyFloat (d.age.getD "")).getD 0) with
      | .error e => (.exception e, st)
      | .ok b =>
        (.ok (mkRegRecord d now b),
         { users := st.users ++ [(pyStripS (d.name.getD ""), mkRegRecord d now b)],
           meals := st.meals })
  else (.validationFailed (validate_user_data d), st)

/-- The default user auto-provisioned by the webhook for an unknown user
(`app.py` lines 334-344); note the `bmr` field stores the raw
`calculate_bmr` output, with no rounding applied. -/
def webhookDefaultRecord (user now : String) : UserRecord :=
  { name := user, age := 25, weight := 70, height := 170, gender := "male",
    goal := "maintain",
    bmr := match calculate_bmr "male" 70 170 25 with
           | .ok b => b
           | .error _ => 0,
    registered_at := now }

/-- Python whitespace on code points (`\s` for ASCII input). -/
def isSpaceCp (n : ℕ) : Bool :=
  n = 32 || n = 9 || n = 10 || n = 13 || n = 11 || n = 12

/-- ASCII case mapping of `str.lower` on one code point. -/
def lowerCp (n : ℕ) : ℕ := if 65 ≤ n ∧ n ≤ 90 then n + 32 else n

/-- `str.lower()` on a code-point string. -/
def lowerL (l : List ℕ) : List ℕ := l.map lowerCp

/-- `str.strip()` on a code-point string. -/
def pyStrip (l : List ℕ) : List ℕ :=
  ((l.dropWhile isSpaceCp).reverse.dropWhile isSpaceCp).reverse

/-- `str.split(',')`: naive split on code point 44, preserving empty
pieces. -/
def splitComma : List ℕ → List (List ℕ)
  | [] => [[]]
  | c :: rest =>
    if c = 44 then [] :: splitComma rest
    else
      match splitComma rest with
      | [] => [[c]]
      | p :: ps => (c :: p) :: ps

/-- The meal-type alternation of the webhook regex (`app.py` line 321). -/
def mealKeywords : List (List ℕ) :=
  [strN "breakfast", strN "lunch", strN "dinner", strN "snack"]

/-- The literal `log` prefix of the webhook regex. -/
def stripLog (m : List ℕ) : Option (List ℕ) :=
  match m with
  | 108 :: 111 :: 103 :: rest => some rest
  | _ => none

/-- `\s+`: at least one whitespace code point, consumed greedily (the
following alternatives all start with letters, so greedy consumption is
exact). -/
def stripWs1 (l : List ℕ) : Option (List ℕ) :=
  if l.takeWhile isSpaceCp = [] then none else some (l.dropWhile isSpaceCp)

/-- The keyword alternation: the four keywords have pairwise distinct
first letters, so at most one can match at a given position. -/
def findKeyword (l : List ℕ) : Option (List ℕ × List ℕ) :=
  match mealKeywords.find? (fun kw => kw.isPrefixOf l) with
  | some kw => some (kw, l.drop kw.length)
  | none => none

/-- The literal `:` after the keyword. -/
def stripColon (l : List ℕ) : Option (List ℕ) :=
  match l with
  | 58 :: rest => some rest
  | _ => none

/-- `\s*(.+)` with the regex engine's backtracking: the greedy whitespace
run is retried at ever shorter lengths `j` until `.+` can match at least
one character (`.` does not match a newline, code point 10); the capture
is then everything up to the next newline. -/
def capRemainder : ℕ → List ℕ → Option (List ℕ)
  | 0, rem =>
    match rem with
    | c :: _ => if c = 10 then none else some (rem.takeWhile (fun x => x ≠ 10))
    | [] => none
  | j + 1, rem =>
    match rem.drop (j + 1) with
    | c :: _ =>
      if c = 10 then capRemainder j rem
      else some ((rem.drop (j + 1)).takeWhile (fun x => x ≠ 10))
    | [] => capRemainder j rem

/-- `re.match(r'log\s+(breakfast|lunch|dinner|snack):\s*(.+)', m)`
(`app.py` lines 321-322) on an already stripped-and-lowercased message:
returns the two capture groups (meal type, remainder). -/
def matchMsg (m : List ℕ) : Option (List ℕ × List ℕ) :=
  (stripLog m).bind fun r1 =>
  (stripWs1 r1).bind fun r2 =>
  (findKeyword r2).bind fun kr =>
  (stripColon kr.2).bind fun r4 =>
  (capRemainder (r4.takeWhile isSpaceCp).length r4).map fun g2 => (kr.1, g2)

/-- The webhook parsing pipeline (`app.py` lines 318-332):
`message.strip().lower()`, the regex match, then the captured remainder
split on commas with each piece stripped. -/
def webhook_parse (message : List ℕ) : Option (List ℕ × List (List ℕ)) :=
  match matchMsg (lowerL (pyStrip message)) with
  | some (mt, g2) => some (mt, (splitComma g2).map pyStrip)
  | none => none

/-- A concrete valid registration payload used as a witness input. -/
def dAlice : RegData :=
  ⟨some "Alice", some "30", some "70", some "170", some "male", some "lose"⟩

/-- The record `register` produces for `dAlice` at time `"t1"`
(raw BMR 1671.672, rounded to 1671.67). -/
def aliceRec : UserRecord :=
  ⟨"Alice", 30, 70, 170, "male", "lose", 1671.67, "t1"⟩

/-- The store after registering `dAlice` into the empty state. -/
def stAlice : AppState := ⟨[("Alice", aliceRec)], []⟩

/-- An ASCII uppercase letter code point.  Every key of `food_db` contains
one, while `str.lower` output never does — the heart of claim C2. -/
def isUpperCp (n : ℕ) : Prop := 65 ≤ n ∧ n ≤ 90

instance (n : ℕ) : Decidable (isUpperCp n) := instDecidableAnd

/-! ## Aggregation lemmas -/

/-- One step of the `calculate_nutrition` loop adds the item's contribution. -/
lemma calcStep_eq (total : Nutrition) (item : List ℕ) :
    calcStep total item =
    { calories := total.calories + (foodContrib item).calories,
      protein := total.protein + (foodContrib item).protein,
      carbs := total.carbs + (foodContrib item).carbs,
      fiber := total.fiber + (foodContrib item).fiber } := by
  cases h : lookupFood item <;> simp [calcStep, foodContrib, h, nzero]

/-- The fold underlying `calculate_nutrition`, with a general accumulator. -/
lemma calc_foldl (items : List (List ℕ)) : ∀ acc : Nutrition,
    items.foldl calcStep acc =
    { calories := acc.calories + (aggregateSpec items).calories,
      protein := acc.protein + (aggregateSpec items).protein,
      carbs := acc.carbs + (aggregateSpec items).carbs,
      fiber := acc.fiber + (aggregateSpec items).fiber } := by
  induction items with
  | nil => intro acc; simp [aggregateSpec]
  | cons i is ih =>
    intro acc
    rw [List.foldl_cons, calcStep_eq, ih]
    simp only [aggregateSpec, List.map_cons, List.sum_cons]
    refine Nutrition.ext ?_ ?_ ?_ ?_ <;> dsimp <;> ring

/-- `calculate_nutrition` equals the spec-side elementwise sum. -/
lemma calc_eq_spec (items : List (List ℕ)) :
    calculate_nutrition items = aggregateSpec items := by
  rw [calculate_nutrition, calc_foldl items nzero]
  simp [nzero]

/-- A list of only unrecognized items aggregates to zero. -/
lemma calc_unknown (l : List (List ℕ)) (h : ∀ i ∈ l, lookupFood i = none) :
    calculate_nutrition l = nzero := by
  rw [calc_eq_spec]
  have hz : ∀ i ∈ l, foodContrib i = nzero := by
    intro i hi; simp [foodContrib, h i hi]
  unfold aggregateSpec nzero
  refine Nutrition.ext ?_ ?_ ?_ ?_ <;>
    [skip; skip; skip; skip] <;>
    · apply List.sum_eq_zero
      intro x hx
      obtain ⟨i, hi, rfl⟩ := List.mem_map.mp hx
      rw [hz i hi]
      rfl

/-! ## Claim theorems: aggregation -/

/-- Claim C4: for every input list of item names, `calculate_nutrition`
returns exactly the elementwise sum, over the four fields, of the catalog
facts of the items present in the catalog; absent items contribute zero to
every field; each element is processed exactly once (the sums range over
the whole list), and the function is total, so no input list errors. -/
theorem calculate_nutrition_eq_spec (items : List (List ℕ)) :
    calculate_nutrition items = aggregateSpec items :=
  calc_eq_spec items

/-- Claim C6: aggregation is invariant under permutation of the input
list, the empty list aggregates to all-zero totals, and a list of only
unrecognized names aggregates to all-zero totals. -/
theorem calculate_nutrition_algebraic :
    (∀ l₁ l₂ : List (List ℕ), l₁.Perm l₂ →
        calculate_nutrition l₁ = calculate_nutrition l₂) ∧
    calculate_nutrition [] = nzero ∧
    (∀ l : List (List ℕ), (∀ i ∈ l, lookupFood i = none) →
        calculate_nutrition l = nzero) := by
  refine ⟨?_, rfl, calc_unknown⟩
  intro l₁ l₂ hp
  rw [calc_eq_spec, calc_eq_spec]
  unfold aggregateSpec
  refine Nutrition.ext ?_ ?_ ?_ ?_ <;> exact (hp.map _).sum_eq

/-- Witness for C6 at concrete inputs. -/
theorem calculate_nutrition_algebraic_witness :
    calculate_nutrition [strN "Dal", strN "Rice"] =
      calculate_nutrition [strN "Rice", strN "Dal"] ∧
    calculate_nutrition [] = nzero ∧
    calculate_nutrition [strN "pasta"] = nzero :=
  ⟨calculate_nutrition_algebraic.1 _ _ (List.Perm.swap _ _ _),
   calculate_nutrition_algebraic.2.1,
   calculate_nutrition_algebraic.2.2 _ (by decide)⟩

/-- Claim C1 (evidence of the code bug): on the message
`"Log Lunch: Jeera Rice, Dal, Cucumber"` the code's parser succeeds with
meal type `lunch` but lowercases the item names, so aggregation yields
all-zero totals; the catalog-cased items the claim expects would have
aggregated to `{446, 18, 69, 8}`, and differ from what the code produces. -/
theorem webhook_lowercases_items_zero_nutrition :
    webhook_parse (strN "Log Lunch: Jeera Rice, Dal, Cucumber") =
      some (strN "lunch", [strN "jeera rice", strN "dal", strN "cucumber"]) ∧
    calculate_nutrition [strN "jeera rice", strN "dal", strN "cucumber"] = nzero ∧
    calculate_nutrition [strN "Jeera Rice", strN "Dal", strN "Cucumber"] =
      ⟨446, 18, 69, 8⟩ ∧
    [strN "jeera rice", strN "dal", strN "cucumber"] ≠
      [strN "Jeera Rice", strN "Dal", strN "Cucumber"] := by
  refine ⟨?_, ?_, ?_, ?_⟩ <;> decide

/-! ## Claim theorems: BMR -/

/-- Claim C5, counterexample to the message text: at the concrete gender
`"unknown"` the code fails with the message
`"Gender must be 'male' or 'female'"`, which is not the message
`"gender must be male or female"` stated by the claim. -/
theorem calculate_bmr_message_counterexample :
    calculate_bmr "unknown" 70 170 25 =
      .error "Gender must be 'male' or 'female'" ∧
    ("Gender must be 'male' or 'female'" : String) ≠
      "gender must be male or female" := by
  refine ⟨?_, ?_⟩ <;> decide

/-- Claim C5 as amended: `calculate_bmr` returns the male formula when the
lowercased gender is `"male"`, the female formula when it is `"female"`,
and otherwise fails with the error message
`"Gender must be 'male' or 'female'"`; the returned value is the raw
formula output, with no rounding applied. -/
theorem calculate_bmr_amended (g : String) (w h a : ℚ) :
    (pyLowerS g = "male" →
      calculate_bmr g w h a = .ok (88.362 + 13.397 * w + 4.799 * h - 5.677 * a)) ∧
    (pyLowerS g = "female" →
      calculate_bmr g w h a = .ok (447.593 + 9.247 * w + 3.098 * h - 4.33 * a)) ∧
    (pyLowerS g ≠ "male" → pyLowerS g ≠ "female" →
      calculate_bmr g w h a = .error "Gender must be 'male' or 'female'") := by
  refine ⟨fun hm => ?_, fun hf => ?_, fun hm hf => ?_⟩
  · simp [calculate_bmr, hm]
  · simp [calculate_bmr, hf]
  · simp [calculate_bmr, hm, hf]

/-- Witness for C5 at concrete inputs covering all three cases. -/
theorem calculate_bmr_amended_witness :
    calculate_bmr "MaLe" 70 170 25 =
      .ok (88.362 + 13.397 * 70 + 4.799 * 170 - 5.677 * 25) ∧
    calculate_bmr "FEMALE" 60 160 30 =
      .ok (447.593 + 9.247 * 60 + 3.098 * 160 - 4.33 * 30) ∧
    calculate_bmr "unknown" 70 170 25 =
      .error "Gender must be 'male' or 'female'" :=
  ⟨(calculate_bmr_amended "MaLe" 70 170 25).1 (by decide),
   (calculate_bmr_amended "FEMALE" 60 160 30).2.1 (by decide),
   (calculate_bmr_amended "unknown" 70 170 25).2.2 (by decide) (by decide)⟩

/-! ## Claim theorems: validation -/

/-- Claim C8: validating an empty input mapping returns exactly the six
required-field messages, one per field, in declaration order, and nothing
else. -/
theorem validate_empty_six_errors :
    validate_user_data ⟨none, none, none, none, none, none⟩ =
      ["name is required", "age is required", "weight is required",
       "height is required", "gender is required", "goal is required"] := by
  decide

/-! ## Webhook parsing lemmas -/

/-- Members of `dropWhile` are members of the original list. -/
lemma mem_dropWhile {α : Type} (p : α → Bool) :
    ∀ (l : List α) (a : α), a ∈ l.dropWhile p → a ∈ l := by
  intro l
  induction l with
  | nil => simp [List.dropWhile]
  | cons c t ih =>
    intro a h
    rw [List.dropWhile_cons] at h
    split at h
    · exact List.mem_cons_of_mem _ (ih a h)
    · exact h

/-- Members of `takeWhile` are members of the original list. -/
lemma mem_takeWhile {α : Type} (p : α → Bool) :
    ∀ (l : List α) (a : α), a ∈ l.takeWhile p → a ∈ l := by
  intro l
  induction l with
  | nil => simp [List.takeWhile]
  | cons c t ih =>
    intro a h
    rw [List.takeWhile_cons] at h
    split at h
    · rcases List.mem_cons.mp h with rfl | h
      · exact List.mem_cons_self _ _
      · exact List.mem_cons_of_mem _ (ih a h)
    · exact absurd h (List.not_mem_nil a)

/-- Members of `drop` are members of the original list. -/
lemma mem_drop {α : Type} : ∀ (n : ℕ) (l : List α) (a : α), a ∈ l.drop n → a ∈ l := by
  intro n
  induction n with
  | zero => simp
  | succ m ih =>
    intro l a h
    cases l with
    | nil => simp at h
    | cons c t =>
      rw [List.drop_succ_cons] at h
      exact List.mem_cons_of_mem _ (ih t a h)

/-- Stripping only removes characters. -/
lemma pyStrip_subset (l : List ℕ) : pyStrip l ⊆ l := by
  intro a ha
  unfold pyStrip at ha
  rw [List.mem_reverse] at ha
  have h1 := mem_dropWhile _ _ _ ha
  rw [List.mem_reverse] at h1
  exact mem_dropWhile _ _ _ h1

/-- `splitComma` never returns the empty list of pieces. -/
lemma splitComma_ne_nil : ∀ l : List ℕ, splitComma l ≠ [] := by
  intro l
  cases l with
  | nil => simp [splitComma]
  | cons c t =>
    simp only [splitComma]
    split
    · simp
    · cases hs : splitComma t <;> simp

/-- Every comma-split piece draws its characters from the input. -/
lemma splitComma_subset : ∀ (l : List ℕ) (p : List ℕ), p ∈ splitComma l → p ⊆ l := by
  intro l
  induction l with
  | nil =>
    intro p hp
    simp only [splitComma, List.mem_singleton] at hp
    subst hp
    exact List.nil_subset _
  | cons c t ih =>
    intro p hp
    simp only [splitComma] at hp
    by_cases hc : c = 44
    · rw [if_pos hc] at hp
      rcases List.mem_cons.mp hp with rfl | h
      · exact List.nil_subset _
      · exact (ih p h).trans (List.subset_cons_self _ _)
    · rw [if_neg hc] at hp
      cases hs : splitComma t with
      | nil => exact absurd hs (splitComma_ne_nil t)
      | cons q qs =>
        rw [hs] at hp
        rcases List.mem_cons.mp hp with rfl | h
        · intro x hx
          rcases List.mem_cons.mp hx with rfl | hx
          · exact List.mem_cons_self _ _
          · exact List.mem_cons_of_mem _
              (ih q (by rw [hs]; exact List.mem_cons_self _ _) hx)
        · exact ((ih p (by rw [hs]; exact List.mem_cons_of_mem _ h)).trans
            (List.subset_cons_self _ _))

/-- The matched `log` prefix only removes leading characters. -/
lemma stripLog_subset {m r : List ℕ} (h : stripLog m = some r) : r ⊆ m := by
  unfold stripLog at h
  split at h
  · obtain rfl := Option.some.inj h
    intro x hx
    exact List.mem_cons_of_mem _ (List.mem_cons_of_mem _ (List.mem_cons_of_mem _ hx))
  · exact absurd h (by simp)

/-- The matched whitespace run only removes leading characters. -/
lemma stripWs1_subset {l r : List ℕ} (h : stripWs1 l = some r) : r ⊆ l := by
  unfold stripWs1 at h
  split at h
  · exact absurd h (by simp)
  · obtain rfl := Option.some.inj h
    exact fun x hx => mem_dropWhile _ _ _ hx

/-- The matched keyword only removes leading characters. -/
lemma findKeyword_subset {l : List ℕ} {kr : List ℕ × List ℕ}
    (h : findKeyword l = some kr) : kr.2 ⊆ l := by
  unfold findKeyword at h
  cases hf : mealKeywords.find? (fun kw => kw.isPrefixOf l) with
  | none => rw [hf] at h; exact absurd h (by simp)
  | some kw =>
    rw [hf] at h
    obtain rfl := Option.some.inj h
    exact fun x hx => mem_drop _ _ _ hx

/-- The matched colon only removes a leading character. -/
lemma stripColon_subset {l r : List ℕ} (h : stripColon l = some r) : r ⊆ l := by
  unfold stripColon at h
  split at h
  · obtain rfl := Option.some.inj h
    exact fun x hx => List.mem_cons_of_mem _ hx
  · exact absurd h (by simp)

/-- The captured remainder draws its characters from the input. -/
lemma capRemainder_subset : ∀ (j : ℕ) (rem g2 : List ℕ),
    capRemainder j rem = some g2 → g2 ⊆ rem := by
  intro j
  induction j with
  | zero =>
    intro rem g2 h
    cases rem with
    | nil => simp [capRemainder] at h
    | cons c t =>
      simp only [capRemainder] at h
      split at h
      · exact absurd h (by simp)
      · obtain rfl := Option.some.inj h
        exact fun x hx => mem_takeWhile _ _ _ hx
  | succ n ih =>
    intro rem g2 h
    simp only [capRemainder] at h
    split at h
    · split at h
      · exact ih rem g2 h
      · obtain rfl := Option.some.inj h
        exact fun x hx => mem_drop _ _ _ (mem_takeWhile _ _ _ hx)
    · exact ih rem g2 h

/-- The second capture group of the webhook regex draws its characters
from the matched message. -/
lemma matchMsg_sub {m : List ℕ} {mt g2 : List ℕ}
    (h : matchMsg m = some (mt, g2)) : g2 ⊆ m := by
  unfold matchMsg at h
  rw [Option.bind_eq_some] at h
  obtain ⟨r1, h1, h⟩ := h
  rw [Option.bind_eq_some] at h
  obtain ⟨r2, h2, h⟩ := h
  rw [Option.bind_eq_some] at h
  obtain ⟨kr, h3, h⟩ := h
  rw [Option.bind_eq_some] at h
  obtain ⟨r4, h4, h⟩ := h
  rw [Option.map_eq_some'] at h
  obtain ⟨g2', h5, heq⟩ := h
  have hg : g2' = g2 := congrArg Prod.snd heq
  subst hg
  exact ((((capRemainder_subset _ _ _ h5).trans (stripColon_subset h4)).trans
    (findKeyword_subset h3)).trans (stripWs1_subset h2)).trans (stripLog_subset h1)

/-- Lowercasing never produces an ASCII uppercase letter. -/
lemma lowerCp_not_upper (d : ℕ) : ¬ isUpperCp (lowerCp d) := by
  unfold isUpperCp lowerCp
  split_ifs <;> omega

/-- Every item produced by the webhook parser consists solely of
non-uppercase code points (the whole message was lowercased first). -/
lemma webhook_items_lower {msg : List ℕ} {mt : List ℕ} {items : List (List ℕ)}
    (h : webhook_parse msg = some (mt, items)) :
    ∀ it ∈ items, ∀ c ∈ it, ¬ isUpperCp c := by
  intro it hit c hc
  unfold webhook_parse at h
  cases hm : matchMsg (lowerL (pyStrip msg)) with
  | none => rw [hm] at h; exact absurd h (by simp)
  | some pr =>
    obtain ⟨mt', g2⟩ := pr
    rw [hm] at h
    simp only [Option.some.injEq, Prod.mk.injEq] at h
    obtain ⟨rfl, rfl⟩ := h
    obtain ⟨q, hq, rfl⟩ := List.mem_map.mp hit
    have hcg : c ∈ g2 := splitComma_subset g2 q hq (pyStrip_subset q hc)
    have hcm : c ∈ lowerL (pyStrip msg) := matchMsg_sub hm hcg
    obtain ⟨d, _, rfl⟩ := List.mem_map.mp hcm
    exact lowerCp_not_upper d

/-- A name with no uppercase letter matches no catalog key. -/
lemma lookupFood_none_of_lower {i : List ℕ} (h : ∀ c ∈ i, ¬ isUpperCp c) :
    lookupFood i = none := by
  have hkeys : ∀ e ∈ food_db, ∃ c, c ∈ e.1 ∧ isUpperCp c := by decide
  unfold lookupFood
  rw [List.find?_eq_none.mpr, Option.map_none']
  intro e he hbe
  obtain ⟨c, hc, hup⟩ := hkeys e he
  have heq : e.1 = i := by simpa using hbe
  exact h c (heq ▸ hc) hup

/-! ## Claim theorems: webhook -/

/-- Claim C2: every meal recorded through the webhook has all-zero
nutrition totals — the message is lowercased in full before the item list
is split out, every catalog key contains an uppercase letter, so no parsed
item can match a catalog entry. -/
theorem webhook_items_never_match_catalog :
    ∀ (msg mt : List ℕ) (items : List (List ℕ)),
      webhook_parse msg = some (mt, items) →
      calculate_nutrition items = nzero := by
  intro msg mt items h
  refine calc_unknown items ?_
  intro i hi
  exact lookupFood_none_of_lower (webhook_items_lower h i hi)

/-- Witness for C2 at the concrete message `"log lunch: dal"`. -/
theorem webhook_items_never_match_catalog_witness :
    calculate_nutrition [strN "dal"] = nzero :=
  webhook_items_never_match_catalog (strN "log lunch: dal") (strN "lunch")
    [strN "dal"] (by decide)

/-- The number of comma-split pieces is the comma count plus one — empty
pieces are preserved, never filtered. -/
lemma splitComma_length : ∀ l : List ℕ, (splitComma l).length = l.count 44 + 1 := by
  intro l
  induction l with
  | nil => simp [splitComma]
  | cons c t ih =>
    simp only [splitComma]
    by_cases hc : c = 44
    · rw [if_pos hc, hc]
      simp [List.count_cons, ih]
    · rw [if_neg hc]
      cases hs : splitComma t with
      | nil => exact absurd hs (splitComma_ne_nil t)
      | cons q qs =>
        rw [hs] at ih
        simp only [List.length_cons] at ih ⊢
        rw [List.count_cons]
        simpa [hc] using ih

/-- A trailing comma yields a trailing empty piece. -/
lemma splitComma_append_comma : ∀ l : List ℕ,
    splitComma (l ++ [44]) = splitComma l ++ [[]] := by
  intro l
  induction l with
  | nil => rfl
  | cons c t ih =>
    by_cases hc : c = 44
    · show splitComma (c :: (t ++ [44])) = splitComma (c :: t) ++ [[]]
      simp only [splitComma, if_pos hc, ih]
      rfl
    · show splitComma (c :: (t ++ [44])) = splitComma (c :: t) ++ [[]]
      simp only [splitComma, if_neg hc, ih]
      cases hs : splitComma t with
      | nil => exact absurd hs (splitComma_ne_nil t)
      | cons q qs => simp

/-- Claim C10: for every message the webhook regex accepts, the food-item
list is the naive comma-split of the captured remainder with each piece
stripped of surrounding whitespace; the number of items is the comma count
plus one (so empty pieces are preserved), and a remainder ending in a
comma produces a trailing empty item. -/
theorem webhook_split_naive :
    ∀ (msg mt g2 : List ℕ), matchMsg (lowerL (pyStrip msg)) = some (mt, g2) →
      webhook_parse msg = some (mt, (splitComma g2).map pyStrip) ∧
      ((splitComma g2).map pyStrip).length = g2.count 44 + 1 ∧
      (∀ g' : List ℕ, g2 = g' ++ [44] →
        (splitComma g2).map pyStrip = (splitComma g').map pyStrip ++ [[]]) := by
  intro msg mt g2 h
  refine ⟨by simp [webhook_parse, h], by simp [splitComma_length], ?_⟩
  intro g' hg
  subst hg
  rw [splitComma_append_comma, List.map_append]
  rfl

/-- Witness for C10 at the concrete message `"log lunch: a,b,"` (captured
remainder `"a,b,"`, trailing comma). -/
theorem webhook_split_naive_witness :
    webhook_parse (strN "log lunch: a,b,") =
      some (strN "lunch", (splitComma (strN "a,b,")).map pyStrip) ∧
    ((splitComma (strN "a,b,")).map pyStrip).length = (strN "a,b,").count 44 + 1 ∧
    (splitComma (strN "a,b,")).map pyStrip =
      (splitComma (strN "a,b")).map pyStrip ++ [[]] := by
  have h := webhook_split_naive (strN "log lunch: a,b,") (strN "lunch")
    (strN "a,b,") (by decide)
  exact ⟨h.1, h.2.1, h.2.2 (strN "a,b") (by decide)⟩

/-! ## Registration lemmas -/

/-- Appending a fresh key to an association list makes it findable. -/
lemma lookup_append_single {l : List (String × UserRecord)} {k : String} {v : UserRecord}
    (h : l.lookup k = none) : (l ++ [(k, v)]).lookup k = some v := by
  induction l with
  | nil => simp [List.lookup]
  | cons a t ih =>
    obtain ⟨ka, va⟩ := a
    simp only [List.cons_append, List.lookup] at h ⊢
    cases hk : k == ka with
    | true => rw [hk] at h; simp at h
    | false => rw [hk] at h; exact ih h

/-- Anatomy of a successful `register` call: validation passed, the
trimmed name was free, the BMR computation succeeded, the returned record
is the one built at `app.py` lines 143-152 and the store gained exactly
that record under the trimmed name, with the meal log untouched. -/
lemma register_ok {st : AppState} {d : RegData} {now : String} {r : UserRecord}
    {st2 : AppState} (h : register st d now = (.ok r, st2)) :
    validate_user_data d = [] ∧
    st.users.lookup (pyStripS (d.name.getD "")) = none ∧
    (∃ b, calculate_bmr (d.gender.getD "") ((pyFloat (d.weight.getD "")).getD 0)
        ((pyFloat (d.height.getD "")).getD 0) ((pyFloat (d.age.getD "")).getD 0) = .ok b ∧
      r = mkRegRecord d now b) ∧
    st2 = { users := st.users ++ [(pyStripS (d.name.getD ""), r)], meals := st.meals } := by
  unfold register at h
  split_ifs at h with hv hl
  · exact absurd h (by simp)
  · split at h
    · exact absurd h (by simp)
    · rename_i b heq
      rw [Prod.mk.injEq] at h
      obtain ⟨h1, h2⟩ := h
      have hr : r = mkRegRecord d now b := (RegResult.ok.inj h1).symm
      refine ⟨hv, ?_, ⟨b, heq, hr⟩, ?_⟩
      · cases hx : st.users.lookup (pyStripS (d.name.getD "")) with
        | none => rfl
        | some v => rw [hx] at hl; simp at hl
      · rw [hr, ← h2]
  · exact absurd h (by simp)

/-- An integer is already banker's-rounded. -/
lemma roundHalfEven_intCast (n : ℤ) : roundHalfEven (n : ℚ) = n := by
  unfold roundHalfEven
  rw [Int.floor_intCast]
  norm_num

/-- Rounding to two decimals is idempotent: its image is exactly the
rationals with two decimal places. -/
lemma pyRound2_idem (q : ℚ) : pyRound2 (pyRound2 q) = pyRound2 q := by
  unfold pyRound2
  rw [div_mul_cancel₀ _ (show (100 : ℚ) ≠ 0 by norm_num), roundHalfEven_intCast]

/-- Evaluation of `float` on a plain digit string: the mantissa is the
digits' value and the exponent is zero. -/
lemma pyFloat_digitsEq {s : String} {l : List Char} {n : ℕ}
    (h1 : pyFloat s = some (applyExp ((digitsToNat l : ℕ) : ℚ) 0))
    (h2 : digitsToNat l = n) : pyFloat s = some n := by
  rw [h1, h2]
  unfold applyExp
  rw [if_pos le_rfl]
  norm_num

/-- `float("30") == 30.0`. -/
lemma pyFloat_30 : pyFloat "30" = some 30 := pyFloat_digitsEq rfl rfl

/-- `float("70") == 70.0`. -/
lemma pyFloat_70 : pyFloat "70" = some 70 := pyFloat_digitsEq rfl rfl

/-- `float("170") == 170.0`. -/
lemma pyFloat_170 : pyFloat "170" = some 170 := pyFloat_digitsEq rfl rfl

/-- `float("200") == 200.0`. -/
lemma pyFloat_200 : pyFloat "200" = some 200 := pyFloat_digitsEq rfl rfl

/-- The BMR of the webhook's default biometrics, exactly. -/
lemma bmr_male_70_170_25 : calculate_bmr "male" 70 170 25 = .ok 1700.057 := by
  unfold calculate_bmr
  rw [if_pos (show pyLowerS "male" = "male" from rfl)]
  norm_num

/-- The BMR of `dAlice`, exactly. -/
lemma bmr_alice : calculate_bmr "male" 70 170 30 = .ok 1671.672 := by
  unfold calculate_bmr
  rw [if_pos (show pyLowerS "male" = "male" from rfl)]
  norm_num

/-- The `bmr` field the webhook stores for an auto-provisioned user. -/
lemma webhookDefault_bmr (user now : String) :
    (webhookDefaultRecord user now).bmr = 1700.057 := by
  show (match calculate_bmr "male" 70 170 25 with
        | .ok b => b
        | .error _ => (0 : ℚ)) = (1700.057 : ℚ)
  rw [bmr_male_70_170_25]

/-- `round(1700.057, 2) == 1700.06`. -/
lemma pyRound2_1700057 : pyRound2 1700.057 = 1700.06 := by
  unfold pyRound2 roundHalfEven
  have h1 : (1700.057 * 100 : ℚ) = 170005.7 := by norm_num
  have h2 : ⌊(170005.7 : ℚ)⌋ = 170005 := by
    apply Int.floor_eq_iff.mpr
    constructor <;> norm_num
  rw [h1, h2, if_neg (by norm_num), if_pos (by norm_num)]
  norm_num

/-- `round(1671.672, 2) == 1671.67`. -/
lemma pyRound2_1671672 : pyRound2 1671.672 = 1671.67 := by
  unfold pyRound2 roundHalfEven
  have h1 : (1671.672 * 100 : ℚ) = 167167.2 := by norm_num
  have h2 : ⌊(167167.2 : ℚ)⌋ = 167167 := by
    apply Int.floor_eq_iff.mpr
    constructor <;> norm_num
  rw [h1, h2, if_pos (by norm_num)]
  norm_num

/-- `dAlice` passes validation. -/
lemma validate_dAlice : validate_user_data dAlice = [] := by
  have ha : ageErrors dAlice = [] := by
    simp only [ageErrors, dAlice, numCheck, pyFloat_30]
    norm_num
  have hw : weightErrors dAlice = [] := by
    simp only [weightErrors, dAlice, numCheck, pyFloat_70]
    norm_num
  have hh : heightErrors dAlice = [] := by
    simp only [heightErrors, dAlice, numCheck, pyFloat_170]
    norm_num
  show requiredErrors dAlice ++ ageErrors dAlice ++ weightErrors dAlice ++
    heightErrors dAlice ++ genderErrors dAlice = []
  rw [ha, hw, hh]
  rfl

/-- Registering `dAlice` into the empty state succeeds and yields
`aliceRec`. -/
lemma register_alice : register ⟨[], []⟩ dAlice "t1" = (.ok aliceRec, stAlice) := by
  have hargs : calculate_bmr (dAlice.gender.getD "") ((pyFloat (dAlice.weight.getD "")).getD 0)
      ((pyFloat (dAlice.height.getD "")).getD 0) ((pyFloat (dAlice.age.getD "")).getD 0) =
      .ok 1671.672 := by
    show calculate_bmr "male" ((pyFloat "70").getD 0) ((pyFloat "170").getD 0)
      ((pyFloat "30").getD 0) = .ok 1671.672
    rw [pyFloat_70, pyFloat_170, pyFloat_30]
    exact bmr_alice
  have hrec : mkRegRecord dAlice "t1" 1671.672 = aliceRec := by
    unfold mkRegRecord
    rw [show pyFloat (dAlice.age.getD "") = some 30 from pyFloat_30,
        show pyFloat (dAlice.weight.getD "") = some 70 from pyFloat_70,
        show pyFloat (dAlice.height.getD "") = some 170 from pyFloat_170,
        pyRound2_1671672]
    rfl
  unfold register
  rw [if_pos validate_dAlice, if_neg (by simp [List.lookup]), hargs]
  dsimp only []
  rw [hrec]
  rfl

/-! ## Claim theorems: BMR rounding and registration -/

/-- Claim C3, counterexample: the record the webhook auto-provisions for
an unknown user stores the raw BMR 1700.057, which is not rounded to two
decimal places (its rounding is 1700.06). -/
theorem webhook_default_bmr_not_rounded :
    (webhookDefaultRecord "default_user" "t").bmr = 1700.057 ∧
    pyRound2 (webhookDefaultRecord "default_user" "t").bmr ≠
      (webhookDefaultRecord "default_user" "t").bmr := by
  refine ⟨webhookDefault_bmr _ _, ?_⟩
  rw [webhookDefault_bmr, pyRound2_1700057]
  norm_num

/-- Claim C3 as amended: records created by `register` always carry a BMR
rounded to two decimal places (rounding them again changes nothing), but
the default records auto-provisioned by the webhook store the raw BMR
1700.057, which is not two-decimal-rounded. -/
theorem bmr_rounding_amended :
    (∀ (st : AppState) (d : RegData) (now : String) (r : UserRecord) (st2 : AppState),
        register st d now = (.ok r, st2) → pyRound2 r.bmr = r.bmr) ∧
    (∀ user now : String,
        (webhookDefaultRecord user now).bmr = 1700.057 ∧
        pyRound2 (webhookDefaultRecord user now).bmr ≠
          (webhookDefaultRecord user now).bmr) := by
  constructor
  · intro st d now r st2 h
    obtain ⟨-, -, ⟨b, -, rfl⟩, -⟩ := register_ok h
    exact pyRound2_idem b
  · intro user now
    refine ⟨webhookDefault_bmr user now, ?_⟩
    rw [webhookDefault_bmr user now, pyRound2_1700057]
    norm_num

/-- Witness for C3's amended statement: the registered record `aliceRec`
is rounding-stable, the webhook default record is not. -/
theorem bmr_rounding_amended_witness :
    pyRound2 aliceRec.bmr = aliceRec.bmr ∧
    pyRound2 (webhookDefaultRecord "default_user" "t").bmr ≠
      (webhookDefaultRecord "default_user" "t").bmr :=
  ⟨bmr_rounding_amended.1 ⟨[], []⟩ dAlice "t1" aliceRec stAlice register_alice,
   (bmr_rounding_amended.2 "default_user" "t").2⟩

/-- Claim C7: a second registration with the same trimmed name as an
existing user fails with Conflict and changes no state — the stored record
remains the one from the first call and the meal log is untouched. -/
theorem register_duplicate_conflict :
    ∀ (st : AppState) (d d2 : RegData) (now now2 : String) (r : UserRecord)
      (st2 : AppState),
      register st d now = (.ok r, st2) →
      validate_user_data d2 = [] →
      pyStripS (d2.name.getD "") = pyStripS (d.name.getD "") →
      register st2 d2 now2 = (.conflict, st2) ∧
      st2.users.lookup (pyStripS (d.name.getD "")) = some r ∧
      st2.meals = st.meals := by
  intro st d d2 now now2 r st2 h hv2 hname
  obtain ⟨hv, hl, ⟨b, hb, hr⟩, hst2⟩ := register_ok h
  have husers : st2.users.lookup (pyStripS (d.name.getD "")) = some r := by
    rw [hst2]
    exact lookup_append_single hl
  refine ⟨?_, husers, by rw [hst2]⟩
  unfold register
  rw [if_pos hv2, hname, husers]
  rfl

/-- Witness for C7: registering `dAlice` twice from the empty state. -/
theorem register_duplicate_conflict_witness :
    register stAlice dAlice "t2" = (.conflict, stAlice) ∧
    stAlice.users.lookup (pyStripS (dAlice.name.getD "")) = some aliceRec ∧
    stAlice.meals = (AppState.mk [] []).meals :=
  register_duplicate_conflict ⟨[], []⟩ dAlice dAlice "t1" "t2" aliceRec stAlice
    register_alice validate_dAlice rfl

/-! ## Validation message lemmas -/

/-- The only message a required-field check can emit. -/
lemma mem_reqCheck {msg : String} {v : Option String} {f : String}
    (h : msg ∈ reqCheck v f) : msg = f ++ " is required" := by
  cases v with
  | none => simpa [reqCheck] using h
  | some s =>
    simp only [reqCheck] at h
    split at h
    · simpa using h
    · exact absurd h (List.not_mem_nil msg)

/-- The only messages a numeric-field check can emit. -/
lemma mem_numCheck {msg : String} {v : Option String} {hi : ℚ} {rm pm : String}
    (h : msg ∈ numCheck v hi rm pm) : msg = rm ∨ msg = pm := by
  cases v with
  | none => simp [numCheck] at h
  | some s =>
    simp only [numCheck] at h
    split at h
    · split at h
      · exact Or.inl (by simpa using h)
      · exact absurd h (List.not_mem_nil msg)
    · exact Or.inr (by simpa using h)

/-- The only message the gender check can emit. -/
lemma mem_genderCheck {msg : String} {v : Option String} (h : msg ∈ genderCheck v) :
    msg = "Gender must be 'male' or 'female'" := by
  cases v with
  | none => simp [genderCheck] at h
  | some g =>
    simp only [genderCheck] at h
    split at h
    · exact absurd h (List.not_mem_nil msg)
    · simpa using h

/-- A numeric-field check emits nothing, the range message alone, or the
parse message alone — never both. -/
lemma numCheck_cases (v : Option String) (hi : ℚ) (rm pm : String) :
    numCheck v hi rm pm = [] ∨ numCheck v hi rm pm = [rm] ∨ numCheck v hi rm pm = [pm] := by
  cases v with
  | none => exact Or.inl rfl
  | some s =>
    simp only [numCheck]
    cases hp : pyFloat s with
    | none => exact Or.inr (Or.inr rfl)
    | some x =>
      by_cases hx : x ≤ 0 ∨ x > hi
      · refine Or.inr (Or.inl ?_)
        show (if x ≤ 0 ∨ x > hi then [rm] else []) = [rm]
        rw [if_pos hx]
      · refine Or.inl ?_
        show (if x ≤ 0 ∨ x > hi then [rm] else []) = []
        rw [if_neg hx]

/-- The required-field block can only emit the six fixed messages. -/
lemma notMem_required {msg : String} (d : RegData)
    (h : msg ∉ (["name is required", "age is required", "weight is required",
      "height is required", "gender is required", "goal is required"] : List String)) :
    msg ∉ requiredErrors d := by
  intro hmem
  unfold requiredErrors at hmem
  simp only [List.mem_append] at hmem
  rcases hmem with ((((h1 | h2) | h3) | h4) | h5) | h6
  · exact h (by rw [mem_reqCheck h1]; simp)
  · exact h (by rw [mem_reqCheck h2]; simp)
  · exact h (by rw [mem_reqCheck h3]; simp)
  · exact h (by rw [mem_reqCheck h4]; simp)
  · exact h (by rw [mem_reqCheck h5]; simp)
  · exact h (by rw [mem_reqCheck h6]; simp)

/-- Count of a non-required message in the required block is zero. -/
lemma count_required_zero (d : RegData) (msg : String)
    (h : msg ∉ (["name is required", "age is required", "weight is required",
      "height is required", "gender is required", "goal is required"] : List String)) :
    (requiredErrors d).count msg = 0 :=
  List.count_eq_zero.mpr (notMem_required d h)

/-- Count of an unrelated message in a numeric block is zero. -/
lemma count_numCheck_zero {v : Option String} {hi : ℚ} {rm pm : String} (msg : String)
    (h1 : msg ≠ rm) (h2 : msg ≠ pm) : (numCheck v hi rm pm).count msg = 0 :=
  List.count_eq_zero.mpr (fun hmem => by
    rcases mem_numCheck hmem with rfl | rfl
    · exact h1 rfl
    · exact h2 rfl)

/-- Count of an unrelated message in the gender block is zero. -/
lemma count_genderCheck_zero {v : Option String} (msg : String)
    (h : msg ≠ "Gender must be 'male' or 'female'") : (genderCheck v).count msg = 0 :=
  List.count_eq_zero.mpr (fun hmem => h (mem_genderCheck hmem))

/-- Within one numeric block, the range and parse messages together occur
at most once. -/
lemma count_numCheck_pair (v : Option String) (hi : ℚ) (rm pm : String) (hne : rm ≠ pm) :
    (numCheck v hi rm pm).count rm + (numCheck v hi rm pm).count pm ≤ 1 := by
  rcases numCheck_cases v hi rm pm with h | h | h <;> rw [h] <;>
    simp [List.count_singleton, beq_iff_eq, hne, Ne.symm hne]

/-- Concrete validation of `{name:"A", age:"200", weight:"70",
height:"170", gender:"male", goal:"lose"}`. -/
lemma validate_dataA200 :
    validate_user_data ⟨some "A", some "200", some "70", some "170", some "male", some "lose"⟩ =
      ["Age must be between 1 and 150"] := by
  have ha : ageErrors ⟨some "A", some "200", some "70", some "170", some "male", some "lose"⟩ =
      ["Age must be between 1 and 150"] := by
    simp only [ageErrors, numCheck, pyFloat_200]
    norm_num
  have hw : weightErrors ⟨some "A", some "200", some "70", some "170", some "male", some "lose"⟩ =
      [] := by
    simp only [weightErrors, numCheck, pyFloat_70]
    norm_num
  have hh : heightErrors ⟨some "A", some "200", some "70", some "170", some "male", some "lose"⟩ =
      [] := by
    simp only [heightErrors, numCheck, pyFloat_170]
    norm_num
  show requiredErrors _ ++ ageErrors _ ++ weightErrors _ ++ heightErrors _ ++ genderErrors _ = _
  rw [ha, hw, hh]
  rfl

/-! ## Claim theorem: validation exclusivity -/

/-- Claim C9: in a single validation call, for each numeric field the
parse-failure message and the out-of-range message are never both present
(their occurrence counts sum to at most one), and validating
`{name:"A", age:"200", weight:"70", height:"170", gender:"male",
goal:"lose"}` returns exactly the single age-range error. -/
theorem validate_numeric_exclusive (d : RegData) :
    ((validate_user_data d).count "Age must be a valid number" +
      (validate_user_data d).count "Age must be between 1 and 150" ≤ 1) ∧
    ((validate_user_data d).count "Weight must be a valid number" +
      (validate_user_data d).count "Weight must be between 1 and 500 kg" ≤ 1) ∧
    ((validate_user_data d).count "Height must be a valid number" +
      (validate_user_data d).count "Height must be between 1 and 300 cm" ≤ 1) ∧
    validate_user_data ⟨some "A", some "200", some "70", some "170", some "male", some "lose"⟩ =
      ["Age must be between 1 and 150"] := by
  refine ⟨?_, ?_, ?_, validate_dataA200⟩
  · unfold validate_user_data
    simp only [List.count_append]
    have h1 := count_required_zero d "Age must be a valid number" (by decide)
    have h2 := count_required_zero d "Age must be between 1 and 150" (by decide)
    have h3 : (weightErrors d).count "Age must be a valid number" = 0 :=
      count_numCheck_zero _ (by decide) (by decide)
    have h4 : (weightErrors d).count "Age must be between 1 and 150" = 0 :=
      count_numCheck_zero _ (by decide) (by decide)
    have h5 : (heightErrors d).count "Age must be a valid number" = 0 :=
      count_numCheck_zero _ (by decide) (by decide)
    have h6 : (heightErrors d).count "Age must be between 1 and 150" = 0 :=
      count_numCheck_zero _ (by decide) (by decide)
    have h7 : (genderErrors d).count "Age must be a valid number" = 0 :=
      count_genderCheck_zero _ (by decide)
    have h8 : (genderErrors d).count "Age must be between 1 and 150" = 0 :=
      count_genderCheck_zero _ (by decide)
    have hp : (ageErrors d).count "Age must be between 1 and 150" +
        (ageErrors d).count "Age must be a valid number" ≤ 1 :=
      count_numCheck_pair d.age 150 _ _ (by decide)
    omega
  · unfold validate_user_data
    simp only [List.count_append]
    have h1 := count_required_zero d "Weight must be a valid number" (by decide)
    have h2 := count_required_zero d "Weight must be between 1 and 500 kg" (by decide)
    have h3 : (ageErrors d).count "Weight must be a valid number" = 0 :=
      count_numCheck_zero _ (by decide) (by decide)
    have h4 : (ageErrors d).count "Weight must be between 1 and 500 kg" = 0 :=
      count_numCheck_zero _ (by decide) (by decide)
    have h5 : (heightErrors d).count "Weight must be a valid number" = 0 :=
      count_numCheck_zero _ (by decide) (by decide)
    have h6 : (heightErrors d).count "Weight must be between 1 and 500 kg" = 0 :=
      count_numCheck_zero _ (by decide) (by decide)
    have h7 : (genderErrors d).count "Weight must be a valid number" = 0 :=
      count_genderCheck_zero _ (by decide)
    have h8 : (genderErrors d).count "Weight must be between 1 and 500 kg" = 0 :=
      count_genderCheck_zero _ (by decide)
    have hp : (weightErrors d).count "Weight must be between 1 and 500 kg" +
        (weightErrors d).count "Weight must be a valid number" ≤ 1 :=
      count_numCheck_pair d.weight 500 _ _ (by decide)
    omega
  · unfold validate_user_data
    simp only [List.count_append]
    have h1 := count_required_zero d "Height must be a valid number" (by decide)
    have h2 := count_required_zero d "Height must be between 1 and 300 cm" (by decide)
    have h3 : (ageErrors d).count "Height must be a valid number" = 0 :=
      count_numCheck_zero _ (by decide) (by decide)
    have h4 : (ageErrors d).count "Height must be between 1 and 300 cm" = 0 :=
      count_numCheck_zero _ (by decide) (by decide)
    have h5 : (weightErrors d).count "Height must be a valid number" = 0 :=
      count_numCheck_zero _ (by decide) (by decide)
    have h6 : (weightErrors d).count "Height must be between 1 and 300 cm" = 0 :=
      count_numCheck_zero _ (by decide) (by decide)
    have h7 : (genderErrors d).count "Height must be a valid number" = 0 :=
      count_genderCheck_zero _ (by decide)
    have h8 : (genderErrors d).count "Height must be between 1 and 300 cm" = 0 :=
      count_genderCheck_zero _ (by decide)
    have hp : (heightErrors d).count "Height must be between 1 and 300 cm" +
        (heightErrors d).count "Height must be a valid number" ≤ 1 :=
      count_numCheck_pair d.height 300 _ _ (by decide)
    omega
